import Mathlib

/-!
Verification development for the tax-calculation core of the
`crypto_tracker` repository (`src/services/tax_calculator.py` and
`src/services/report_generator.py`).

Modelling conventions (shallow embedding):
* `Decimal` values are modelled as `Rat` (exact rational arithmetic);
  the code only adds, subtracts, multiplies and divides small exact
  decimals in the claims at hand.
* ORM rows (`TransactionModel`) become the structure `Tx`; the SQL
  queries (filter by `wallet_id`, `tx_type`, `created_at.year`,
  `ORDER BY created_at`) become `List.filter` over a single wallet's
  transaction list, which is taken to be given in ascending
  `created_at` order (so `ORDER BY created_at DESC` is `List.reverse`).
* `None` / falsy defaults: Python's `x or Decimal("0")` and
  `x if x else Decimal("0")` are `Option.getD 0` (both map `None` and
  `0` to `0`).
* `logger.warning` calls (the shortfall warnings of `calculate_fifo`)
  are modelled as a returned list of the sell-transaction ids that were
  logged; `calculate_lifo` contains no such call, so its list is empty.
* Emitted `TaxRecordModel` rows become the structure `TaxRecord`.  Two
  extra instrumentation fields (`buyId`, `quantity`) record which buy
  transaction a match consumed and the `sell_amount` of that match;
  these are loop-local observables of the source, not persisted columns.
-/

namespace CryptoTracker

/-- One `TransactionModel` row of a single wallet.  `year` is
`created_at.year`; the surrounding list is assumed sorted by
`created_at` ascending. -/
structure Tx where
  id : Nat
  txType : String
  year : Nat
  amountIn : Option Rat
  amountOut : Option Rat
  priceUsdIn : Option Rat
  priceUsdOut : Option Rat
  deriving Repr, DecidableEq

/-- `buy_tx.amount_out or Decimal("0")`. -/
def amtOut (t : Tx) : Rat := t.amountOut.getD 0

/-- `sell_tx.amount_in if sell_tx.amount_in else Decimal("0")`. -/
def amtIn (t : Tx) : Rat := t.amountIn.getD 0

/-- `buy_tx.price_usd_in or Decimal("0")`. -/
def priceIn (t : Tx) : Rat := t.priceUsdIn.getD 0

/-- `sell_tx.price_usd_out or Decimal("0")`. -/
def priceOut (t : Tx) : Rat := t.priceUsdOut.getD 0

/-- `tx_type.in_(["buy", "transfer_in"])`. -/
def isBuyType (s : String) : Bool :=
  s = "buy" || s = "transfer_in"

/-- `tx_type.in_(["sell", "swap", "transfer_out"])`. -/
def isSellType (s : String) : Bool :=
  s = "sell" || s = "swap" || s = "transfer_out"

/-- One emitted `TaxRecordModel` row (`wallet_id` is fixed per run and
omitted).  `buyId` and `quantity` are instrumentation: the id of the
buy transaction the match consumed (`none` for the average-cost method,
which matches no individual lot) and the `sell_amount` of the match. -/
structure TaxRecord where
  txId : Nat
  buyId : Option Nat
  quantity : Rat
  gainLoss : Rat
  costBasis : Rat
  proceeds : Rat
  method : String
  year : Nat
  deriving Repr, DecidableEq

/-- Result of the inner FIFO/LIFO matching loop for one sell
transaction: the records emitted, the remaining buy list (the source's
`buy_transactions[buy_index:]` view), the final `remaining_buy_amount`,
and the final `remaining_to_sell` (the leftover used for the shortfall
warning). -/
structure MatchResult where
  recs : List TaxRecord
  buys : List Tx
  rba : Rat
  leftover : Rat
  deriving Repr, DecidableEq

/-- The inner `while remaining_to_sell > 0 and buy_index < len(buy_transactions)`
loop of `calculate_fifo` / `calculate_lifo` (lines 87–118 resp.
190–221), for one sell transaction with id `sellId` and
`price_usd_out` value `sellPrice`.  `rts` is `remaining_to_sell`,
`bs` the unconsumed tail of `buy_transactions`, `rba` is
`remaining_buy_amount`.

Loop iterations map to this recursion step-exactly.  The only
reshaping is that the source iteration that merely skips an exhausted
lot (`available_to_sell <= 0`: `buy_index += 1; continue`) is folded
into the preceding consume step when demand remains: after a consume
that leaves `remaining_to_sell > 0`, necessarily
`sell_amount = available_to_sell`, so the next source iteration finds
`available_to_sell == 0` and advances with
`remaining_buy_amount = 0` — which is the `rest 0` recursive call
below.  When the consume step satisfies all the demand, the loop exits
with `buy_index` unchanged and `remaining_buy_amount` grown by
`sell_amount`, exactly as in the final branch. -/
def matchSell (method : String) (year : Nat) (sellId : Nat) (sellPrice : Rat)
    (rts : Rat) (bs : List Tx) (rba : Rat) : MatchResult :=
  if ¬ 0 < rts then ⟨[], bs, rba, rts⟩
  else
    match bs with
    | [] => ⟨[], [], rba, rts⟩
    | b :: rest =>
        let avail := amtOut b - rba
        if avail ≤ 0 then
          matchSell method year sellId sellPrice rts rest 0
        else
          let sa := min rts avail
          let cb := sa * priceIn b
          let pr := sa * sellPrice
          let r : TaxRecord :=
            ⟨sellId, some b.id, sa, pr - cb, cb, pr, method, year⟩
          if 0 < rts - sa then
            let m := matchSell method year sellId sellPrice (rts - sa) rest 0
            ⟨r :: m.recs, m.buys, m.rba, m.leftover⟩
          else ⟨[r], b :: rest, rba + sa, rts - sa⟩

/-- Per-sell outcome of the outer `for sell_tx in sell_transactions`
loop: the records its matches emitted and the final
`remaining_to_sell`. -/
structure SellOutcome where
  sellId : Nat
  recs : List TaxRecord
  leftover : Rat
  deriving Repr, DecidableEq

/-- The outer loop of `calculate_fifo` / `calculate_lifo`: processes
each sell transaction in order, threading `buy_index` (as the remaining
buy list) and `remaining_buy_amount` across sells. -/
def processSells (method : String) (year : Nat) :
    List Tx → List Tx → Rat → List SellOutcome × List Tx × Rat
  | [], bs, rba => ([], bs, rba)
  | s :: ss, bs, rba =>
      let m := matchSell method year s.id (priceOut s) (amtIn s) bs rba
      let rest := processSells method year ss m.buys m.rba
      (⟨s.id, m.recs, m.leftover⟩ :: rest.1, rest.2)

/-- The buy-side query: `tx_type IN ("buy","transfer_in") AND
created_at.year == year`, in ascending `created_at` order. -/
def buysOf (txs : List Tx) (year : Nat) : List Tx :=
  txs.filter (fun t => isBuyType t.txType && t.year == year)

/-- The sell-side query: `tx_type IN ("sell","swap","transfer_out") AND
created_at.year == year`, in ascending `created_at` order. -/
def sellsOf (txs : List Tx) (year : Nat) : List Tx :=
  txs.filter (fun t => isSellType t.txType && t.year == year)

/-- The result dictionary of `calculate_fifo` / `calculate_lifo`,
together with the emitted `TaxRecordModel` rows and logged shortfall
warnings. -/
structure TaxResult where
  records : List TaxRecord
  warnings : List Nat
  totalGainLoss : Rat
  totalCostBasis : Rat
  totalProceeds : Rat
  estimatedTaxUsd : Rat
  deriving Repr, DecidableEq

/-- Per-sell outcomes of a FIFO/LIFO run (instrumented view used by the
theorems; the flattened record stream is `TaxResult.records`). -/
def runOutcomes (method : String) (buysOrdered sells : List Tx) (year : Nat) :
    List SellOutcome :=
  (processSells method year sells buysOrdered 0).1

/-- Builds the result from the per-sell outcomes; the running totals of
the source are the sums over all emitted records. -/
def mkTaxResult (outs : List SellOutcome) (warnSellIds : List Nat) : TaxResult :=
  let recs := (outs.map SellOutcome.recs).flatten
  { records := recs
    warnings := warnSellIds
    totalGainLoss := (recs.map TaxRecord.gainLoss).sum
    totalCostBasis := (recs.map TaxRecord.costBasis).sum
    totalProceeds := (recs.map TaxRecord.proceeds).sum
    estimatedTaxUsd := (recs.map TaxRecord.gainLoss).sum * (21 / 100) }

/-- `TaxCalculator.calculate_fifo` (lines 34–138): buys ascending,
sells ascending; after each sell with `remaining_to_sell > 0` a
shortfall warning naming the sell transaction is logged. -/
def calculate_fifo (txs : List Tx) (year : Nat) : TaxResult :=
  let outs := runOutcomes "FIFO" (buysOf txs year) (sellsOf txs year) year
  mkTaxResult outs
    ((outs.filter (fun o => decide (0 < o.leftover))).map SellOutcome.sellId)

/-- `TaxCalculator.calculate_lifo` (lines 140–237): buys in descending
`created_at` order (`List.reverse` of the ascending list), sells
ascending; the source logs no shortfall warning in this method. -/
def calculate_lifo (txs : List Tx) (year : Nat) : TaxResult :=
  let outs := runOutcomes "LIFO" (buysOf txs year).reverse (sellsOf txs year) year
  mkTaxResult outs []

/-- Result dictionary of `calculate_average_cost`, with the emitted
`TaxRecordModel` rows. -/
structure AvgResult where
  records : List TaxRecord
  averageCostPerUnit : Rat
  totalGainLoss : Rat
  totalCostBasis : Rat
  totalProceeds : Rat
  estimatedTaxUsd : Rat
  deriving Repr, DecidableEq

/-- `total_bought` of `calculate_average_cost` (lines 279–286): the sum
of `amount_out` over the year's buy transactions. -/
def totalBought (txs : List Tx) (year : Nat) : Rat :=
  ((buysOf txs year).map amtOut).sum

/-- `total_cost` of `calculate_average_cost`: the sum of
`amount_out * price_usd_in` over the year's buy transactions. -/
def totalCost (txs : List Tx) (year : Nat) : Rat :=
  ((buysOf txs year).map (fun b => amtOut b * priceIn b)).sum

/-- `average_cost_per_unit = total_cost / total_bought if total_bought > 0
else Decimal("0")` (line 288). -/
def averageCostPerUnit (txs : List Tx) (year : Nat) : Rat :=
  if 0 < totalBought txs year then totalCost txs year / totalBought txs year
  else 0

/-- `TaxCalculator.calculate_average_cost` (lines 239–334): one single
period-wide average over all of the year's buys, applied to every sell
of the year; no ordering is involved and no pool state is threaded. -/
def calculate_average_cost (txs : List Tx) (year : Nat) : AvgResult :=
  let avg := averageCostPerUnit txs year
  let recs := (sellsOf txs year).map (fun s =>
    let amount := amtIn s
    let price := priceOut s
    let cb := amount * avg
    let pr := amount * price
    (⟨s.id, none, amount, pr - cb, cb, pr, "AVERAGE_COST", year⟩ : TaxRecord))
  { records := recs
    averageCostPerUnit := avg
    totalGainLoss := (recs.map TaxRecord.gainLoss).sum
    totalCostBasis := (recs.map TaxRecord.costBasis).sum
    totalProceeds := (recs.map TaxRecord.proceeds).sum
    estimatedTaxUsd := (recs.map TaxRecord.gainLoss).sum * (21 / 100) }

/-- Per-method entry of the `by_method` dictionary of
`get_annual_summary` (lines 356–390). -/
structure MethodSummary where
  totalGainLoss : Rat
  totalCostBasis : Rat
  totalProceeds : Rat
  recordsCount : Nat
  deriving Repr, DecidableEq

/-- One loop iteration of `get_annual_summary`: update the insertion-
ordered `by_method` dictionary with one tax record. -/
def addRecord : List (String × MethodSummary) → TaxRecord → List (String × MethodSummary)
  | [], r => [(r.method, ⟨r.gainLoss, r.costBasis, r.proceeds, 1⟩)]
  | (m, d) :: rest, r =>
      if m = r.method then
        (m, ⟨d.totalGainLoss + r.gainLoss, d.totalCostBasis + r.costBasis,
             d.totalProceeds + r.proceeds, d.recordsCount + 1⟩) :: rest
      else (m, d) :: addRecord rest r

/-- The value returned by `get_annual_summary` for one wallet and year
(the `wallet_id`/`year` echo fields and the timestamp are omitted). -/
structure AnnualSummary where
  totalGainLoss : Rat
  byMethod : List (String × MethodSummary)
  estimatedTaxUsd : Rat
  deriving Repr, DecidableEq

/-- `TaxCalculator.get_annual_summary` (lines 336–393) applied to the
stored tax records of one wallet and year: a single running
`total_gain_loss` over all records, a per-method breakdown, and
`estimated_tax_usd = total_gain_loss * Decimal("0.21")`. -/
def get_annual_summary (records : List TaxRecord) : AnnualSummary :=
  { totalGainLoss := (records.map TaxRecord.gainLoss).sum
    byMethod := records.foldl addRecord []
    estimatedTaxUsd := (records.map TaxRecord.gainLoss).sum * (21 / 100) }

/-! Spec-side models, written from the specification's words, used only
to compare the source's behaviour against the behaviour the
specification describes. -/

/-- The specification's average-cost pool (§4.4): running
`total_quantity` and `total_cost`. -/
structure AvgPool where
  totalQuantity : Rat
  totalCost : Rat
  deriving Repr, DecidableEq

/-- Spec-side model of the §4.4 average-cost pool discipline: process
the year's events in time order; an acquisition adds quantity and cost
to the pool; a disposal of quantity `q` is costed at the instantaneous
`unit_cost = total_cost / total_quantity` recomputed at disposal time,
and then `total_cost -= unit_cost * q; total_quantity -= q`.  Returns
the cost basis of each disposal in order. -/
def specAvgCostBases : List Tx → AvgPool → List Rat
  | [], _ => []
  | t :: ts, pool =>
      if isBuyType t.txType then
        specAvgCostBases ts
          ⟨pool.totalQuantity + amtOut t, pool.totalCost + amtOut t * priceIn t⟩
      else if isSellType t.txType then
        let q := amtIn t
        let unitCost := pool.totalCost / pool.totalQuantity
        let cb := unitCost * q
        cb :: specAvgCostBases ts ⟨pool.totalQuantity - q, pool.totalCost - cb⟩
      else specAvgCostBases ts pool

/-- Spec-side `total_gain` of the annual aggregator (§4.6):
`Σ gain_loss where gain_loss > 0`. -/
def specTotalGain (records : List TaxRecord) : Rat :=
  ((records.filter (fun r => decide (0 < r.gainLoss))).map TaxRecord.gainLoss).sum

/-- Spec-side `total_loss` of the annual aggregator (§4.6):
`Σ |gain_loss| where gain_loss < 0`. -/
def specTotalLoss (records : List TaxRecord) : Rat :=
  ((records.filter (fun r => decide (r.gainLoss < 0))).map
    (fun r => |r.gainLoss|)).sum

/-! Auxiliary notions used by the proofs. -/

/-- State invariant of the matching loop: `remaining_buy_amount` never
exceeds the amount of the buy transaction it is currently consuming,
and is `0` once the buy list is exhausted. -/
def Inv : List Tx → Rat → Prop
  | [], rba => rba = 0
  | b :: _, rba => 0 ≤ rba ∧ rba ≤ amtOut b

instance : ∀ (bs : List Tx) (rba : Rat), Decidable (Inv bs rba)
  | [], _ => by unfold Inv; infer_instance
  | _ :: _, _ => by unfold Inv; infer_instance

/-- Quantity still available for matching: the buy amounts of the
unconsumed buy list minus the part of its head already consumed. -/
def supply (bs : List Tx) (rba : Rat) : Rat :=
  (bs.map amtOut).sum - rba

/-- The per-sell proceeds list of a FIFO/LIFO run: for each processed
sell transaction, the sum of `proceeds` over the records its matches
emitted. -/
def perSellProceeds (outs : List SellOutcome) : List Rat :=
  outs.map (fun o => (o.recs.map TaxRecord.proceeds).sum)

theorem matchSell_neg (m : String) (y sid : Nat) (p rts : Rat) (bs : List Tx)
    (rba : Rat) (h : ¬ 0 < rts) :
    matchSell m y sid p rts bs rba = ⟨[], bs, rba, rts⟩ := by
  cases bs <;> simp [matchSell, h]

theorem matchSell_nil (m : String) (y sid : Nat) (p rts rba : Rat) :
    matchSell m y sid p rts [] rba = ⟨[], [], rba, rts⟩ := by
  by_cases h : 0 < rts <;> simp [matchSell, h]

theorem matchSell_advance (m : String) (y sid : Nat) (p rts : Rat) (b : Tx)
    (rest : List Tx) (rba : Rat) (h0 : 0 < rts) (ha : amtOut b - rba ≤ 0) :
    matchSell m y sid p rts (b :: rest) rba =
      matchSell m y sid p rts rest 0 := by
  simp [matchSell, h0, ha]

theorem matchSell_stop (m : String) (y sid : Nat) (p rts : Rat) (b : Tx)
    (rest : List Tx) (rba : Rat) (h0 : 0 < rts) (ha : 0 < amtOut b - rba)
    (hc : ¬ 0 < rts - min rts (amtOut b - rba)) :
    matchSell m y sid p rts (b :: rest) rba =
      ⟨[⟨sid, some b.id, min rts (amtOut b - rba),
          min rts (amtOut b - rba) * p - min rts (amtOut b - rba) * priceIn b,
          min rts (amtOut b - rba) * priceIn b,
          min rts (amtOut b - rba) * p, m, y⟩],
        b :: rest, rba + min rts (amtOut b - rba),
        rts - min rts (amtOut b - rba)⟩ := by
  simp [matchSell, h0, not_le.mpr ha, hc]

theorem matchSell_go (m : String) (y sid : Nat) (p rts : Rat) (b : Tx)
    (rest : List Tx) (rba : Rat) (h0 : 0 < rts) (ha : 0 < amtOut b - rba)
    (hc : 0 < rts - min rts (amtOut b - rba)) :
    matchSell m y sid p rts (b :: rest) rba =
      ⟨⟨sid, some b.id, min rts (amtOut b - rba),
          min rts (amtOut b - rba) * p - min rts (amtOut b - rba) * priceIn b,
          min rts (amtOut b - rba) * priceIn b,
          min rts (amtOut b - rba) * p, m, y⟩ ::
        (matchSell m y sid p (rts - min rts (amtOut b - rba)) rest 0).recs,
        (matchSell m y sid p (rts - min rts (amtOut b - rba)) rest 0).buys,
        (matchSell m y sid p (rts - min rts (amtOut b - rba)) rest 0).rba,
        (matchSell m y sid p (rts - min rts (amtOut b - rba)) rest 0).leftover⟩ := by
  simp [matchSell, h0, not_le.mpr ha, hc]

theorem supply_nonneg (bs : List Tx) (rba : Rat)
    (hnn : ∀ b ∈ bs, 0 ≤ amtOut b) (hinv : Inv bs rba) :
    0 ≤ supply bs rba := by
  cases bs with
  | nil => simp [supply, Inv] at hinv ⊢; simp [hinv]
  | cons b rest =>
      obtain ⟨h1, h2⟩ := hinv
      have hsum : 0 ≤ (rest.map amtOut).sum := by
        apply List.sum_nonneg
        intro x hx
        obtain ⟨c, hc, rfl⟩ := List.mem_map.mp hx
        exact hnn c (List.mem_cons_of_mem _ hc)
      simp only [supply, List.map_cons, List.sum_cons]
      linarith

theorem matchSell_spec (m : String) (y sid : Nat) (p : Rat) :
    ∀ (bs : List Tx) (rts rba : Rat),
      (∀ b ∈ bs, 0 ≤ amtOut b) → Inv bs rba → 0 ≤ rts →
      (matchSell m y sid p rts bs rba).leftover
          = max 0 (rts - supply bs rba) ∧
      ((matchSell m y sid p rts bs rba).recs.map TaxRecord.quantity).sum
          = rts - (matchSell m y sid p rts bs rba).leftover ∧
      ((matchSell m y sid p rts bs rba).recs.map TaxRecord.proceeds).sum
          = (rts - (matchSell m y sid p rts bs rba).leftover) * p ∧
      (∀ b ∈ (matchSell m y sid p rts bs rba).buys, 0 ≤ amtOut b) ∧
      Inv (matchSell m y sid p rts bs rba).buys
          (matchSell m y sid p rts bs rba).rba ∧
      supply (matchSell m y sid p rts bs rba).buys
          (matchSell m y sid p rts bs rba).rba
        = supply bs rba - (rts - (matchSell m y sid p rts bs rba).leftover) := by
  intro bs
  induction bs with
  | nil =>
      intro rts rba hnn hinv hrts
      have hrba : rba = 0 := hinv
      rw [matchSell_nil]
      subst hrba
      simp [supply, max_eq_right hrts, Inv]
  | cons b rest ih =>
      intro rts rba hnn hinv hrts
      obtain ⟨hrba0, hrbab⟩ := hinv
      have hnn' : ∀ c ∈ rest, 0 ≤ amtOut c :=
        fun c hc => hnn c (List.mem_cons_of_mem _ hc)
      have hinv' : Inv rest 0 := by
        cases rest with
        | nil => rfl
        | cons c cs => exact ⟨le_refl 0, hnn' c (List.mem_cons_self c cs)⟩
      have hsumrest : 0 ≤ (rest.map amtOut).sum := by
        apply List.sum_nonneg
        intro x hx
        obtain ⟨c, hc, rfl⟩ := List.mem_map.mp hx
        exact hnn' c hc
      by_cases h0 : 0 < rts
      · by_cases ha : amtOut b - rba ≤ 0
        · -- advance past an exhausted lot
          have heq : rba = amtOut b :=
            le_antisymm hrbab (by linarith)
          have hsup : supply (b :: rest) rba = supply rest 0 := by
            simp only [supply, List.map_cons, List.sum_cons]
            rw [heq]
            ring
          rw [matchSell_advance m y sid p rts b rest rba h0 ha]
          obtain ⟨h1, h2, h3, h4, h5, h6⟩ := ih rts 0 hnn' hinv' hrts
          exact ⟨by rw [h1, hsup], h2, h3, h4, h5, by rw [h6, hsup]⟩
        · have havail : 0 < amtOut b - rba := lt_of_not_le ha
          have hsale : min rts (amtOut b - rba) ≤ rts := min_le_left _ _
          have hsava : min rts (amtOut b - rba) ≤ amtOut b - rba := min_le_right _ _
          have hsupS : supply (b :: rest) rba
              = (amtOut b - rba) + (rest.map amtOut).sum := by
            simp only [supply, List.map_cons, List.sum_cons]
            ring
          by_cases hc : 0 < rts - min rts (amtOut b - rba)
          · -- the lot is fully consumed and demand remains
            have hsa : min rts (amtOut b - rba) = amtOut b - rba := by
              rcases min_cases rts (amtOut b - rba) with ⟨hm, _⟩ | ⟨hm, _⟩
              · rw [hm] at hc
                simp at hc
              · exact hm
            rw [matchSell_go m y sid p rts b rest rba h0 havail hc]
            obtain ⟨h1, h2, h3, h4, h5, h6⟩ :=
              ih (rts - min rts (amtOut b - rba)) 0 hnn' hinv' (le_of_lt hc)
            have hsup' : supply rest 0
                = supply (b :: rest) rba - min rts (amtOut b - rba) := by
              rw [hsupS, hsa]
              simp [supply]
            refine ⟨?_, ?_, ?_, h4, h5, ?_⟩
            · rw [h1, hsup']
              have : rts - min rts (amtOut b - rba)
                  - (supply (b :: rest) rba - min rts (amtOut b - rba))
                  = rts - supply (b :: rest) rba := by ring
              rw [this]
            · simp only [List.map_cons, List.sum_cons]
              rw [h2]
              ring
            · simp only [List.map_cons, List.sum_cons]
              rw [h3]
              ring
            · rw [h6, hsup']
              ring
          · -- all remaining demand was satisfied from this lot
            have hsarts : min rts (amtOut b - rba) = rts := by
              have := not_lt.mp hc
              linarith [hsale]
            rw [matchSell_stop m y sid p rts b rest rba h0 havail hc]
            dsimp only
            have hlz : rts - min rts (amtOut b - rba) = 0 := by
              rw [hsarts]
              ring
            have hS : rts ≤ supply (b :: rest) rba := by
              rw [hsupS]
              have : rts ≤ amtOut b - rba := by
                rw [← hsarts]
                exact hsava
              linarith
            refine ⟨?_, ?_, ?_, hnn, ⟨by positivity, by linarith⟩, ?_⟩
            · simp only [hlz]
              rw [max_eq_left (by linarith)]
            · simp [hlz, hsarts]
            · simp [hlz, hsarts]
            · simp only [hlz, supply, List.map_cons, List.sum_cons]
              rw [hsarts]
              ring
      · -- remaining_to_sell is not positive: the loop body never runs
        have hrts0 : rts = 0 := le_antisymm (not_lt.mp h0) hrts
        rw [matchSell_neg m y sid p rts (b :: rest) rba h0]
        have hsup0 : 0 ≤ supply (b :: rest) rba :=
          supply_nonneg _ _ hnn ⟨hrba0, hrbab⟩
        subst hrts0
        refine ⟨?_, by simp, by simp, hnn, ⟨hrba0, hrbab⟩, by simp⟩
        rw [max_eq_left (by linarith)]

theorem matchSell_len (m : String) (y sid : Nat) (p : Rat) :
    ∀ (bs : List Tx) (rts rba : Rat),
      (matchSell m y sid p rts bs rba).recs.length
          + (matchSell m y sid p rts bs rba).buys.length
        ≤ bs.length + 1 := by
  intro bs
  induction bs with
  | nil =>
      intro rts rba
      rw [matchSell_nil]
      simp
  | cons b rest ih =>
      intro rts rba
      by_cases h0 : 0 < rts
      · by_cases ha : amtOut b - rba ≤ 0
        · rw [matchSell_advance m y sid p rts b rest rba h0 ha]
          have := ih rts 0
          simp only [List.length_cons]
          omega
        · have havail : 0 < amtOut b - rba := lt_of_not_le ha
          by_cases hc : 0 < rts - min rts (amtOut b - rba)
          · rw [matchSell_go m y sid p rts b rest rba h0 havail hc]
            dsimp only
            have := ih (rts - min rts (amtOut b - rba)) 0
            simp only [List.length_cons]
            omega
          · rw [matchSell_stop m y sid p rts b rest rba h0 havail hc]
            simp
            omega
      · rw [matchSell_neg m y sid p rts (b :: rest) rba h0]
        simp

theorem Inv_zero (bs : List Tx) (hnn : ∀ b ∈ bs, 0 ≤ amtOut b) : Inv bs 0 := by
  cases bs with
  | nil => rfl
  | cons b rest => exact ⟨le_refl 0, hnn b (List.mem_cons_self b rest)⟩

theorem processSells_len (m : String) (y : Nat) :
    ∀ (sells bs : List Tx) (rba : Rat),
      (((processSells m y sells bs rba).1.map SellOutcome.recs).flatten).length
          + (processSells m y sells bs rba).2.1.length
        ≤ bs.length + sells.length := by
  intro sells
  induction sells with
  | nil =>
      intro bs rba
      simp [processSells]
  | cons s ss ih =>
      intro bs rba
      have h1 := matchSell_len m y s.id (priceOut s) bs (amtIn s) rba
      have h2 := ih (matchSell m y s.id (priceOut s) (amtIn s) bs rba).buys
        (matchSell m y s.id (priceOut s) (amtIn s) bs rba).rba
      simp only [processSells, List.map_cons, List.flatten_cons,
        List.length_append, List.length_cons]
      omega

theorem processSells_consumed (m : String) (y : Nat) :
    ∀ (sells bs : List Tx) (rba : Rat),
      (∀ b ∈ bs, 0 ≤ amtOut b) → Inv bs rba → (∀ s ∈ sells, 0 ≤ amtIn s) →
      ((((processSells m y sells bs rba).1.map SellOutcome.recs).flatten).map
          TaxRecord.quantity).sum
        ≤ supply bs rba := by
  intro sells
  induction sells with
  | nil =>
      intro bs rba hnn hinv _
      simp only [processSells, List.map_nil, List.flatten_nil, List.sum_nil]
      exact supply_nonneg bs rba hnn hinv
  | cons s ss ih =>
      intro bs rba hnn hinv hs
      have hrts : 0 ≤ amtIn s := hs s (List.mem_cons_self s ss)
      obtain ⟨_, hq, _, hnn', hinv', hsup'⟩ :=
        matchSell_spec m y s.id (priceOut s) bs (amtIn s) rba hnn hinv hrts
      have hrest := ih (matchSell m y s.id (priceOut s) (amtIn s) bs rba).buys
        (matchSell m y s.id (priceOut s) (amtIn s) bs rba).rba hnn' hinv'
        (fun t ht => hs t (List.mem_cons_of_mem _ ht))
      simp only [processSells, List.map_cons, List.flatten_cons, List.map_append,
        List.sum_append]
      rw [hq]
      linarith [hrest, hsup']

theorem processSells_full (m : String) (y : Nat) :
    ∀ (sells bs : List Tx) (rba : Rat),
      (∀ b ∈ bs, 0 ≤ amtOut b) → Inv bs rba → (∀ s ∈ sells, 0 ≤ amtIn s) →
      (sells.map amtIn).sum ≤ supply bs rba →
      perSellProceeds (processSells m y sells bs rba).1
          = sells.map (fun s => amtIn s * priceOut s) ∧
      ∀ o ∈ (processSells m y sells bs rba).1, o.leftover = 0 := by
  intro sells
  induction sells with
  | nil =>
      intro bs rba _ _ _ _
      simp [processSells, perSellProceeds]
  | cons s ss ih =>
      intro bs rba hnn hinv hs hsup
      have hrts : 0 ≤ amtIn s := hs s (List.mem_cons_self s ss)
      have hssnn : 0 ≤ (ss.map amtIn).sum := by
        apply List.sum_nonneg
        intro x hx
        obtain ⟨t, ht, rfl⟩ := List.mem_map.mp hx
        exact hs t (List.mem_cons_of_mem _ ht)
      have hsum : amtIn s + (ss.map amtIn).sum ≤ supply bs rba := by
        simpa using hsup
      obtain ⟨hl, hq, hp, hnn', hinv', hsup'⟩ :=
        matchSell_spec m y s.id (priceOut s) bs (amtIn s) rba hnn hinv hrts
      have hl0 : (matchSell m y s.id (priceOut s) (amtIn s) bs rba).leftover = 0 := by
        rw [hl, max_eq_left]
        linarith
      have hrest := ih (matchSell m y s.id (priceOut s) (amtIn s) bs rba).buys
        (matchSell m y s.id (priceOut s) (amtIn s) bs rba).rba hnn' hinv'
        (fun t ht => hs t (List.mem_cons_of_mem _ ht))
        (by rw [hsup', hl0]; linarith)
      constructor
      · simp only [processSells, perSellProceeds, List.map_cons]
        refine congrArg₂ _ ?_ ?_
        · rw [hp, hl0]
          ring
        · exact hrest.1
      · intro o ho
        simp only [processSells, List.mem_cons] at ho
        rcases ho with rfl | ho
        · exact hl0
        · exact hrest.2 o ho

theorem perSellProceeds_sum (outs : List SellOutcome) :
    (((outs.map SellOutcome.recs).flatten).map TaxRecord.proceeds).sum
      = (perSellProceeds outs).sum := by
  induction outs with
  | nil => simp [perSellProceeds]
  | cons o os ih =>
      simp only [perSellProceeds, List.map_cons, List.flatten_cons,
        List.map_append, List.sum_append, List.sum_cons] at ih ⊢
      rw [ih]

theorem isSellType_not_buy (a : String) (h : isSellType a) :
    isBuyType a = false := by
  simp only [isSellType, Bool.or_eq_true, decide_eq_true_eq] at h
  rcases h with (h | h) | h <;> simp [isBuyType, h]

theorem processSells_nil_buys (m : String) (y : Nat) :
    ∀ (sells : List Tx),
      processSells m y sells [] 0
        = (sells.map (fun s => (⟨s.id, [], amtIn s⟩ : SellOutcome)), [], 0) := by
  intro sells
  induction sells with
  | nil => simp [processSells]
  | cons s ss ih =>
      simp only [processSells, matchSell_nil, List.map_cons]
      rw [ih]

/-- C2: under FIFO, acquisitions A1(t=1, q=10, unit cost 1) and
A2(t=2, q=10, unit cost 2) followed by a disposal of q=15 yield exactly
two records, consuming 10 units from A1 and then 5 units from A2, for a
total cost basis of 10·1 + 5·2 = 20. -/
theorem fifo_ordering_example :
    ((calculate_fifo [⟨1, "buy", 2024, none, some 10, some 1, none⟩,
        ⟨2, "buy", 2024, none, some 10, some 2, none⟩,
        ⟨3, "sell", 2024, some 15, none, none, some 3⟩] 2024).records.map
      (fun r => (r.buyId, r.quantity, r.costBasis))
        = [(some 1, 10, 10), (some 2, 5, 10)]) ∧
    (calculate_fifo [⟨1, "buy", 2024, none, some 10, some 1, none⟩,
        ⟨2, "buy", 2024, none, some 10, some 2, none⟩,
        ⟨3, "sell", 2024, some 15, none, none, some 3⟩] 2024).totalCostBasis
      = 20 := by
  norm_num [calculate_fifo, runOutcomes, processSells, matchSell, mkTaxResult,
    buysOf, sellsOf, amtIn, amtOut, priceIn, priceOut, isBuyType, isSellType]

/-- C3: under LIFO, the same input (A1(t=1, q=10, cost 1),
A2(t=2, q=10, cost 2), disposal of q=15) yields records consuming 10
units from A2 and then 5 units from A1, for a total cost basis of
10·2 + 5·1 = 25. -/
theorem lifo_ordering_example :
    ((calculate_lifo [⟨1, "buy", 2024, none, some 10, some 1, none⟩,
        ⟨2, "buy", 2024, none, some 10, some 2, none⟩,
        ⟨3, "sell", 2024, some 15, none, none, some 3⟩] 2024).records.map
      (fun r => (r.buyId, r.quantity, r.costBasis))
        = [(some 2, 10, 20), (some 1, 5, 5)]) ∧
    (calculate_lifo [⟨1, "buy", 2024, none, some 10, some 1, none⟩,
        ⟨2, "buy", 2024, none, some 10, some 2, none⟩,
        ⟨3, "sell", 2024, some 15, none, none, some 3⟩] 2024).totalCostBasis
      = 25 := by
  norm_num [calculate_lifo, runOutcomes, processSells, matchSell, mkTaxResult,
    buysOf, sellsOf, amtIn, amtOut, priceIn, priceOut, isBuyType, isSellType]

/-- C9: the matching computation is a total (structurally recursive)
function, and the number of emitted records — one per iteration of the
inner FIFO/LIFO matching loop that consumes quantity — is bounded by a
linear function of the number of input events: each consume step either
retires a buy lot for good or finishes a sell, so at most
`#buys + #sells ≤ 2 · #events` records arise; the inner loop cannot run
forever. -/
theorem matching_terminates_linearly (txs : List Tx) (year : Nat) :
    (calculate_fifo txs year).records.length ≤ 2 * txs.length ∧
    (calculate_lifo txs year).records.length ≤ 2 * txs.length := by
  have hb : (buysOf txs year).length ≤ txs.length := List.length_filter_le _ _
  have hs : (sellsOf txs year).length ≤ txs.length := List.length_filter_le _ _
  constructor
  · have h := processSells_len "FIFO" year (sellsOf txs year) (buysOf txs year) 0
    simp only [calculate_fifo, mkTaxResult, runOutcomes]
    omega
  · have h := processSells_len "LIFO" year (sellsOf txs year)
      (buysOf txs year).reverse 0
    have hbr : (buysOf txs year).reverse.length = (buysOf txs year).length :=
      List.length_reverse _
    simp only [calculate_lifo, mkTaxResult, runOutcomes]
    omega

/-- C10: all three per-method calculations restrict both the buy-side
and the sell-side query to `created_at.year == year`, so a transaction
of any other year is invisible to the computation: inserting it
anywhere in the wallet's transaction list leaves each method's result
unchanged (in particular an earlier-year acquisition never contributes
cost basis to a disposal of the requested year). -/
theorem other_year_invisible (l1 l2 : List Tx) (t : Tx) (year : Nat)
    (h : t.year ≠ year) :
    calculate_fifo (l1 ++ t :: l2) year = calculate_fifo (l1 ++ l2) year ∧
    calculate_lifo (l1 ++ t :: l2) year = calculate_lifo (l1 ++ l2) year ∧
    calculate_average_cost (l1 ++ t :: l2) year
      = calculate_average_cost (l1 ++ l2) year := by
  have hyb : (isBuyType t.txType && t.year == year) = false := by
    simp [h]
  have hys : (isSellType t.txType && t.year == year) = false := by
    simp [h]
  have hb : buysOf (l1 ++ t :: l2) year = buysOf (l1 ++ l2) year := by
    simp only [buysOf, List.filter_append, List.filter_cons, hyb]
    simp
  have hs : sellsOf (l1 ++ t :: l2) year = sellsOf (l1 ++ l2) year := by
    simp only [sellsOf, List.filter_append, List.filter_cons, hys]
    simp
  have havg : averageCostPerUnit (l1 ++ t :: l2) year
      = averageCostPerUnit (l1 ++ l2) year := by
    simp only [averageCostPerUnit, totalBought, totalCost, hb]
  refine ⟨?_, ?_, ?_⟩
  · simp only [calculate_fifo, hb, hs]
  · simp only [calculate_lifo, hb, hs]
  · simp only [calculate_average_cost, havg, hs]

theorem other_year_invisible_witness :
    (2023 ≠ 2024) ∧
    (calculate_fifo ([] ++ (⟨1, "buy", 2023, none, some 10, some 1, none⟩ : Tx) ::
        [⟨2, "sell", 2024, some 5, none, none, some 2⟩]) 2024
      = calculate_fifo ([] ++ [⟨2, "sell", 2024, some 5, none, none, some 2⟩]) 2024) ∧
    (calculate_lifo ([] ++ (⟨1, "buy", 2023, none, some 10, some 1, none⟩ : Tx) ::
        [⟨2, "sell", 2024, some 5, none, none, some 2⟩]) 2024
      = calculate_lifo ([] ++ [⟨2, "sell", 2024, some 5, none, none, some 2⟩]) 2024) ∧
    (calculate_average_cost ([] ++ (⟨1, "buy", 2023, none, some 10, some 1, none⟩ : Tx) ::
        [⟨2, "sell", 2024, some 5, none, none, some 2⟩]) 2024
      = calculate_average_cost ([] ++ [⟨2, "sell", 2024, some 5, none, none, some 2⟩]) 2024) :=
  ⟨by decide,
    other_year_invisible [] [⟨2, "sell", 2024, some 5, none, none, some 2⟩]
      ⟨1, "buy", 2023, none, some 10, some 1, none⟩ 2024 (by decide)⟩

/-- C8: a lot partially consumed by a disposal stays in the store
(`buy_index` is not advanced, the stored transaction — hence its unit
cost — is untouched, and no new lot object is created); the consumed
part is tracked by `remaining_buy_amount`, so the remaining quantity is
the unconsumed part, and a later disposal of exactly that remainder is
costed at the original unit cost. -/
theorem lot_survival (amt c q1 p1 p2 : Rat) (y : Nat)
    (h1 : 0 < q1) (h2 : q1 < amt) :
    (matchSell "FIFO" y 2 p1 q1 [⟨1, "buy", y, none, some amt, some c, none⟩] 0).buys
        = [⟨1, "buy", y, none, some amt, some c, none⟩] ∧
    (matchSell "FIFO" y 2 p1 q1 [⟨1, "buy", y, none, some amt, some c, none⟩] 0).rba
        = q1 ∧
    ((calculate_fifo [⟨1, "buy", y, none, some amt, some c, none⟩,
        ⟨2, "sell", y, some q1, none, none, some p1⟩,
        ⟨3, "sell", y, some (amt - q1), none, none, some p2⟩] y).records.map
      (fun r => (r.buyId, r.quantity, r.costBasis)))
        = [(some 1, q1, q1 * c), (some 1, amt - q1, (amt - q1) * c)] ∧
    (calculate_fifo [⟨1, "buy", y, none, some amt, some c, none⟩,
        ⟨2, "sell", y, some q1, none, none, some p1⟩,
        ⟨3, "sell", y, some (amt - q1), none, none, some p2⟩] y).warnings = [] := by
  have hamt : (0 : Rat) < amt := lt_trans h1 h2
  have hao : amtOut ⟨1, "buy", y, none, some amt, some c, none⟩ = amt := rfl
  have e1 : matchSell "FIFO" y 2 p1 q1
      [⟨1, "buy", y, none, some amt, some c, none⟩] 0 =
      ⟨[⟨2, some 1, q1, q1 * p1 - q1 * c, q1 * c, q1 * p1, "FIFO", y⟩],
        [⟨1, "buy", y, none, some amt, some c, none⟩], q1, 0⟩ := by
    have hmin : min q1 (amtOut ⟨1, "buy", y, none, some amt, some c, none⟩ - 0)
        = q1 := by
      rw [hao]
      exact min_eq_left (by linarith)
    rw [matchSell_stop "FIFO" y 2 p1 q1 _ _ 0 h1 (by rw [hao]; linarith)
      (by rw [hmin]; simp)]
    rw [hmin]
    simp [priceIn]
  have e2 : matchSell "FIFO" y 3 p2 (amt - q1)
      [⟨1, "buy", y, none, some amt, some c, none⟩] q1 =
      ⟨[⟨3, some 1, amt - q1, (amt - q1) * p2 - (amt - q1) * c, (amt - q1) * c,
          (amt - q1) * p2, "FIFO", y⟩],
        [⟨1, "buy", y, none, some amt, some c, none⟩], amt, 0⟩ := by
    have hmin : min (amt - q1) (amtOut ⟨1, "buy", y, none, some amt, some c, none⟩ - q1)
        = amt - q1 := by
      rw [hao]
      exact min_self _
    rw [matchSell_stop "FIFO" y 3 p2 (amt - q1) _ _ q1 (by linarith)
      (by rw [hao]; linarith) (by rw [hmin]; simp)]
    rw [hmin]
    simp only [priceIn, Option.getD_some]
    have ha1 : q1 + (amt - q1) = amt := by ring
    have ha2 : amt - q1 - (amt - q1) = 0 := by ring
    rw [ha1, ha2]
  have hby : buysOf [⟨1, "buy", y, none, some amt, some c, none⟩,
      ⟨2, "sell", y, some q1, none, none, some p1⟩,
      ⟨3, "sell", y, some (amt - q1), none, none, some p2⟩] y
      = [⟨1, "buy", y, none, some amt, some c, none⟩] := by
    simp [buysOf, isBuyType, isSellType]
  have hsy : sellsOf [⟨1, "buy", y, none, some amt, some c, none⟩,
      ⟨2, "sell", y, some q1, none, none, some p1⟩,
      ⟨3, "sell", y, some (amt - q1), none, none, some p2⟩] y
      = [⟨2, "sell", y, some q1, none, none, some p1⟩,
         ⟨3, "sell", y, some (amt - q1), none, none, some p2⟩] := by
    simp [sellsOf, isBuyType, isSellType]
  have hrun : runOutcomes "FIFO"
      [⟨1, "buy", y, none, some amt, some c, none⟩]
      [⟨2, "sell", y, some q1, none, none, some p1⟩,
       ⟨3, "sell", y, some (amt - q1), none, none, some p2⟩] y
      = [⟨2, [⟨2, some 1, q1, q1 * p1 - q1 * c, q1 * c, q1 * p1, "FIFO", y⟩], 0⟩,
         ⟨3, [⟨3, some 1, amt - q1, (amt - q1) * p2 - (amt - q1) * c,
            (amt - q1) * c, (amt - q1) * p2, "FIFO", y⟩], 0⟩] := by
    simp only [runOutcomes, processSells, amtIn, priceOut, Option.getD_some]
    rw [e1]
    dsimp only
    rw [e2]
  refine ⟨by rw [e1], by rw [e1], ?_, ?_⟩
  · simp only [calculate_fifo, hby, hsy, hrun, mkTaxResult]
    simp
  · simp only [calculate_fifo, hby, hsy, hrun, mkTaxResult]
    simp

theorem lot_survival_witness :
    ((0 : Rat) < 6) ∧ ((6 : Rat) < 10) ∧
    ((matchSell "FIFO" 2024 2 9 6 [⟨1, "buy", 2024, none, some 10, some 7, none⟩] 0).buys
        = [⟨1, "buy", 2024, none, some 10, some 7, none⟩] ∧
      (matchSell "FIFO" 2024 2 9 6 [⟨1, "buy", 2024, none, some 10, some 7, none⟩] 0).rba
        = 6 ∧
      ((calculate_fifo [⟨1, "buy", 2024, none, some 10, some 7, none⟩,
          ⟨2, "sell", 2024, some 6, none, none, some 9⟩,
          ⟨3, "sell", 2024, some (10 - 6), none, none, some 11⟩] 2024).records.map
        (fun r => (r.buyId, r.quantity, r.costBasis)))
          = [(some 1, 6, 6 * 7), (some 1, 10 - 6, (10 - 6) * 7)] ∧
      (calculate_fifo [⟨1, "buy", 2024, none, some 10, some 7, none⟩,
          ⟨2, "sell", 2024, some 6, none, none, some 9⟩,
          ⟨3, "sell", 2024, some (10 - 6), none, none, some 11⟩] 2024).warnings = []) :=
  ⟨by norm_num, by norm_num,
    lot_survival 10 7 6 9 11 2024 (by norm_num) (by norm_num)⟩

/-- C1 counterexample: under the source's Average-Cost method the unit
cost applied to a disposal is NOT the instantaneous average of the
holdings immediately before the disposal.  For buy(q=10, price=1),
then sell(q=5), then buy(q=10, price=3), the spec-side pool (§4.4)
prices the disposal at average 1 (cost basis 5), but the source prices
it at the whole-period average (10·1+10·3)/20 = 2 (cost basis 10). -/
theorem avg_cost_not_instantaneous :
    ((calculate_average_cost [⟨1, "buy", 2024, none, some 10, some 1, none⟩,
        ⟨2, "sell", 2024, some 5, none, none, some 3⟩,
        ⟨3, "buy", 2024, none, some 10, some 3, none⟩] 2024).records.map
      TaxRecord.costBasis = [10]) ∧
    specAvgCostBases [⟨1, "buy", 2024, none, some 10, some 1, none⟩,
        ⟨2, "sell", 2024, some 5, none, none, some 3⟩,
        ⟨3, "buy", 2024, none, some 10, some 3, none⟩] ⟨0, 0⟩ = [5] ∧
    ((10 : Rat) ≠ 5) := by
  refine ⟨?_, ?_, by norm_num⟩
  · have hbuys : buysOf [⟨1, "buy", 2024, none, some 10, some 1, none⟩,
        ⟨2, "sell", 2024, some 5, none, none, some 3⟩,
        ⟨3, "buy", 2024, none, some 10, some 3, none⟩] 2024
        = [⟨1, "buy", 2024, none, some 10, some 1, none⟩,
           ⟨3, "buy", 2024, none, some 10, some 3, none⟩] := by
      simp [buysOf, isBuyType, isSellType]
    have hsells : sellsOf [⟨1, "buy", 2024, none, some 10, some 1, none⟩,
        ⟨2, "sell", 2024, some 5, none, none, some 3⟩,
        ⟨3, "buy", 2024, none, some 10, some 3, none⟩] 2024
        = [⟨2, "sell", 2024, some 5, none, none, some 3⟩] := by
      simp [sellsOf, isBuyType, isSellType]
    have havg : averageCostPerUnit [⟨1, "buy", 2024, none, some 10, some 1, none⟩,
        ⟨2, "sell", 2024, some 5, none, none, some 3⟩,
        ⟨3, "buy", 2024, none, some 10, some 3, none⟩] 2024 = 2 := by
      rw [averageCostPerUnit, totalBought, totalCost, hbuys]
      norm_num [amtOut, priceIn]
    simp only [calculate_average_cost, hsells, havg, List.map_cons, List.map_nil]
    norm_num [amtIn]
  · have h1 : isBuyType "buy" = true := by decide
    have h2 : isBuyType "sell" = false := by decide
    have h3 : isSellType "sell" = true := by decide
    simp only [specAvgCostBases, h1, h2, h3, if_true, if_false,
      Bool.false_eq_true, Bool.true_eq_false]
    norm_num [amtIn, amtOut, priceIn, priceOut]

/-- C1 (amended): the source's Average-Cost method prices every
disposal of the year at one single period-wide average
`total_cost / total_bought` over ALL of the year's acquisitions
(0 when there are none), computed once per run — not at an
instantaneous pool average; no pool totals are decremented by a
disposal, so inserting a disposal anywhere leaves the unit cost applied
to every other disposal unchanged. -/
theorem avg_cost_period_average (txs : List Tx) (year : Nat)
    (r : TaxRecord) (hr : r ∈ (calculate_average_cost txs year).records)
    (l1 l2 : List Tx) (s : Tx) (hs : isSellType s.txType) :
    r.costBasis = r.quantity * averageCostPerUnit txs year ∧
    averageCostPerUnit (l1 ++ s :: l2) year
      = averageCostPerUnit (l1 ++ l2) year := by
  constructor
  · simp only [calculate_average_cost, List.mem_map] at hr
    obtain ⟨t, ht, rfl⟩ := hr
    rfl
  · have hyb : (isBuyType s.txType && s.year == year) = false := by
      rw [isSellType_not_buy s.txType hs]
      simp
    have hb : buysOf (l1 ++ s :: l2) year = buysOf (l1 ++ l2) year := by
      simp only [buysOf, List.filter_append, List.filter_cons, hyb]
      simp
    simp only [averageCostPerUnit, totalBought, totalCost, hb]

theorem avg_cost_period_average_witness :
    ((⟨2, none, 5, 5, 10, 15, "AVERAGE_COST", 2024⟩ : TaxRecord)
        ∈ (calculate_average_cost [⟨1, "buy", 2024, none, some 10, some 2, none⟩,
            ⟨2, "sell", 2024, some 5, none, none, some 3⟩] 2024).records) ∧
    (isSellType "swap" = true) ∧
    ((⟨2, none, 5, 5, 10, 15, "AVERAGE_COST", 2024⟩ : TaxRecord).costBasis
        = (⟨2, none, 5, 5, 10, 15, "AVERAGE_COST", 2024⟩ : TaxRecord).quantity
          * averageCostPerUnit [⟨1, "buy", 2024, none, some 10, some 2, none⟩,
              ⟨2, "sell", 2024, some 5, none, none, some 3⟩] 2024 ∧
      averageCostPerUnit ([] ++ (⟨9, "swap", 2024, some 1, none, none, some 1⟩ : Tx) :: []) 2024
        = averageCostPerUnit ([] ++ []) 2024) := by
  have hmem : (⟨2, none, 5, 5, 10, 15, "AVERAGE_COST", 2024⟩ : TaxRecord)
      ∈ (calculate_average_cost [⟨1, "buy", 2024, none, some 10, some 2, none⟩,
          ⟨2, "sell", 2024, some 5, none, none, some 3⟩] 2024).records := by
    have hsells : sellsOf [⟨1, "buy", 2024, none, some 10, some 2, none⟩,
        ⟨2, "sell", 2024, some 5, none, none, some 3⟩] 2024
        = [⟨2, "sell", 2024, some 5, none, none, some 3⟩] := by
      simp [sellsOf, isBuyType, isSellType]
    have havg : averageCostPerUnit [⟨1, "buy", 2024, none, some 10, some 2, none⟩,
        ⟨2, "sell", 2024, some 5, none, none, some 3⟩] 2024 = 2 := by
      have hbuys : buysOf [⟨1, "buy", 2024, none, some 10, some 2, none⟩,
          ⟨2, "sell", 2024, some 5, none, none, some 3⟩] 2024
          = [⟨1, "buy", 2024, none, some 10, some 2, none⟩] := by
        simp [buysOf, isBuyType, isSellType]
      rw [averageCostPerUnit, totalBought, totalCost, hbuys]
      norm_num [amtOut, priceIn]
    simp only [calculate_average_cost, hsells, havg, List.map_cons, List.map_nil]
    norm_num [amtIn, priceOut]
  exact ⟨hmem, by decide,
    avg_cost_period_average _ 2024 _ hmem [] [] ⟨9, "swap", 2024, some 1, none, none, some 1⟩
      (by decide)⟩

theorem outs_nil_buys_records (sells : List Tx) :
    ((sells.map (fun s => (⟨s.id, [], amtIn s⟩ : SellOutcome))).map
      SellOutcome.recs).flatten = ([] : List TaxRecord) := by
  induction sells with
  | nil => simp
  | cons s ss ih => simp [ih]

theorem outs_nil_buys_warnings (sells : List Tx) :
    (((sells.map (fun s => (⟨s.id, [], amtIn s⟩ : SellOutcome))).filter
        (fun o => decide (0 < o.leftover))).map SellOutcome.sellId)
      = (sells.filter (fun s => decide (0 < amtIn s))).map Tx.id := by
  induction sells with
  | nil => simp
  | cons s ss ih =>
      simp only [List.map_cons, List.filter_cons]
      by_cases h : 0 < amtIn s
      · simp [h, ih]
      · simp [h, ih]

/-- C4 counterexample: a disposal of q=5 with zero prior acquisitions
under LIFO yields zero records but also ZERO shortfall warnings — the
source's `calculate_lifo` loop contains no warning at all, so "the
engine emits exactly one ShortfallWarning" is false for it. -/
theorem shortfall_no_lifo_warning :
    (calculate_lifo [⟨1, "sell", 2024, some 5, none, none, some 2⟩] 2024).records
        = [] ∧
    (calculate_lifo [⟨1, "sell", 2024, some 5, none, none, some 2⟩] 2024).warnings
        = [] ∧
    ¬ ((calculate_lifo [⟨1, "sell", 2024, some 5, none, none, some 2⟩]
        2024).warnings.length = 1) := by
  refine ⟨?_, rfl, ?_⟩
  · norm_num [calculate_lifo, runOutcomes, processSells, matchSell, mkTaxResult,
      buysOf, sellsOf, amtIn, amtOut, priceIn, priceOut, isBuyType, isSellType]
  · intro h
    simp [calculate_lifo, mkTaxResult] at h

/-- C4 (amended): a disposal exceeding the available lots yields
records for the matched portion only and never fabricates a lot — the
total quantity matched never exceeds the total quantity acquired in the
year, under FIFO and under LIFO alike.  With zero prior acquisitions,
zero records result; `calculate_fifo` then logs one warning per
unmatched disposal, naming the disposal transaction (but not its
unmatched quantity), while `calculate_lifo` logs no warning at all. -/
theorem shortfall_behavior (txs : List Tx) (year : Nat)
    (hb : ∀ t ∈ txs, 0 ≤ amtOut t) (hsn : ∀ t ∈ txs, 0 ≤ amtIn t) :
    (((calculate_fifo txs year).records.map TaxRecord.quantity).sum
        ≤ ((buysOf txs year).map amtOut).sum) ∧
    (((calculate_lifo txs year).records.map TaxRecord.quantity).sum
        ≤ ((buysOf txs year).map amtOut).sum) ∧
    (buysOf txs year = [] →
      (calculate_fifo txs year).records = [] ∧
      (calculate_fifo txs year).warnings
          = ((sellsOf txs year).filter (fun s => decide (0 < amtIn s))).map Tx.id ∧
      (calculate_lifo txs year).records = [] ∧
      (calculate_lifo txs year).warnings = []) := by
  have hnnB : ∀ b ∈ buysOf txs year, 0 ≤ amtOut b :=
    fun b h => hb b (List.mem_of_mem_filter h)
  have hnnS : ∀ s ∈ sellsOf txs year, 0 ≤ amtIn s :=
    fun s h => hsn s (List.mem_of_mem_filter h)
  have hnnBr : ∀ b ∈ (buysOf txs year).reverse, 0 ≤ amtOut b :=
    fun b h => hnnB b (List.mem_reverse.mp h)
  refine ⟨?_, ?_, ?_⟩
  · have h := processSells_consumed "FIFO" year (sellsOf txs year)
      (buysOf txs year) 0 hnnB (Inv_zero _ hnnB) hnnS
    simp only [supply, sub_zero] at h
    simpa only [calculate_fifo, mkTaxResult, runOutcomes] using h
  · have h := processSells_consumed "LIFO" year (sellsOf txs year)
      (buysOf txs year).reverse 0 hnnBr (Inv_zero _ hnnBr) hnnS
    simp only [supply, sub_zero, List.map_reverse, List.sum_reverse] at h
    simpa only [calculate_lifo, mkTaxResult, runOutcomes] using h
  · intro h0
    have hps := processSells_nil_buys
    refine ⟨?_, ?_, ?_, rfl⟩
    · simp only [calculate_fifo, mkTaxResult, runOutcomes, h0, hps]
      exact outs_nil_buys_records _
    · simp only [calculate_fifo, mkTaxResult, runOutcomes, h0, hps]
      exact outs_nil_buys_warnings _
    · simp only [calculate_lifo, mkTaxResult, runOutcomes, h0,
        List.reverse_nil, hps]
      exact outs_nil_buys_records _

theorem shortfall_behavior_witness :
    (∀ t ∈ [(⟨1, "sell", 2024, some 5, none, none, some 2⟩ : Tx)], 0 ≤ amtOut t) ∧
    (∀ t ∈ [(⟨1, "sell", 2024, some 5, none, none, some 2⟩ : Tx)], 0 ≤ amtIn t) ∧
    ((((calculate_fifo [⟨1, "sell", 2024, some 5, none, none, some 2⟩]
          2024).records.map TaxRecord.quantity).sum
        ≤ ((buysOf [⟨1, "sell", 2024, some 5, none, none, some 2⟩] 2024).map
            amtOut).sum) ∧
      (((calculate_lifo [⟨1, "sell", 2024, some 5, none, none, some 2⟩]
          2024).records.map TaxRecord.quantity).sum
        ≤ ((buysOf [⟨1, "sell", 2024, some 5, none, none, some 2⟩] 2024).map
            amtOut).sum) ∧
      (buysOf [⟨1, "sell", 2024, some 5, none, none, some 2⟩] 2024 = [] →
        (calculate_fifo [⟨1, "sell", 2024, some 5, none, none, some 2⟩]
            2024).records = [] ∧
        (calculate_fifo [⟨1, "sell", 2024, some 5, none, none, some 2⟩]
            2024).warnings
          = ((sellsOf [⟨1, "sell", 2024, some 5, none, none, some 2⟩]
              2024).filter (fun s => decide (0 < amtIn s))).map Tx.id ∧
        (calculate_lifo [⟨1, "sell", 2024, some 5, none, none, some 2⟩]
            2024).records = [] ∧
        (calculate_lifo [⟨1, "sell", 2024, some 5, none, none, some 2⟩]
            2024).warnings = [])) := by
  have h1 : ∀ t ∈ [(⟨1, "sell", 2024, some 5, none, none, some 2⟩ : Tx)],
      0 ≤ amtOut t := by
    intro t ht
    simp only [List.mem_singleton] at ht
    subst ht
    norm_num [amtOut]
  have h2 : ∀ t ∈ [(⟨1, "sell", 2024, some 5, none, none, some 2⟩ : Tx)],
      0 ≤ amtIn t := by
    intro t ht
    simp only [List.mem_singleton] at ht
    subst ht
    norm_num [amtIn]
  exact ⟨h1, h2, shortfall_behavior _ 2024 h1 h2⟩

/-- C5 counterexample: no transaction is ever rejected.  A disposal
before any acquisition under the Average-Cost method does not fail:
the empty pool's average cost is taken to be exactly zero (line 288's
`else Decimal("0")` branch) and a record with cost basis 0 is emitted;
likewise a buy with a missing price is processed with price 0 rather
than failing. -/
theorem no_invalid_transaction :
    (calculate_average_cost [⟨1, "sell", 2024, some 5, none, none, some 2⟩]
        2024).averageCostPerUnit = 0 ∧
    (calculate_average_cost [⟨1, "sell", 2024, some 5, none, none, some 2⟩]
        2024).records
      = [⟨1, none, 5, 10, 0, 10, "AVERAGE_COST", 2024⟩] ∧
    ((calculate_fifo [⟨1, "buy", 2024, none, some 10, none, none⟩,
        ⟨2, "sell", 2024, some 5, none, none, some 2⟩] 2024).records.map
      (fun r => (r.costBasis, r.proceeds))) = [((0 : Rat), (10 : Rat))] := by
  refine ⟨?_, ?_, ?_⟩
  · simp only [calculate_average_cost]
    simp [averageCostPerUnit, totalBought, totalCost, buysOf, isBuyType]
  · have havg : averageCostPerUnit [⟨1, "sell", 2024, some 5, none, none, some 2⟩]
        2024 = 0 := by
      simp [averageCostPerUnit, totalBought, totalCost, buysOf, isBuyType]
    have hsells : sellsOf [⟨1, "sell", 2024, some 5, none, none, some 2⟩] 2024
        = [⟨1, "sell", 2024, some 5, none, none, some 2⟩] := by
      simp [sellsOf, isSellType]
    simp only [calculate_average_cost, havg, hsells, List.map_cons, List.map_nil]
    norm_num [amtIn, priceOut]
  · norm_num [calculate_fifo, runOutcomes, processSells, matchSell, mkTaxResult,
      buysOf, sellsOf, amtIn, amtOut, priceIn, priceOut, isBuyType, isSellType]

/-- C5 (amended): the source performs no per-transaction validation and
knows no `InvalidTransaction` failure.  With no acquisitions in the
year, the Average-Cost method takes the empty pool's average cost to be
zero and prices every disposal at cost basis 0 (rather than failing);
and a disposal with non-positive quantity simply runs zero iterations
of the matching loop — no record, no error. -/
theorem no_validation (txs : List Tx) (year : Nat) (hb : buysOf txs year = [])
    (m : String) (y sid : Nat) (p q : Rat) (bs : List Tx) (rba : Rat)
    (hq : q ≤ 0) :
    ((calculate_average_cost txs year).averageCostPerUnit = 0 ∧
      ∀ r ∈ (calculate_average_cost txs year).records, r.costBasis = 0) ∧
    matchSell m y sid p q bs rba = ⟨[], bs, rba, q⟩ := by
  have havg : averageCostPerUnit txs year = 0 := by
    have htb : totalBought txs year = 0 := by
      simp [totalBought, hb]
    simp [averageCostPerUnit, htb]
  refine ⟨⟨?_, ?_⟩, ?_⟩
  · simp only [calculate_average_cost]
    exact havg
  · intro r hr
    simp only [calculate_average_cost, List.mem_map] at hr
    obtain ⟨t, ht, rfl⟩ := hr
    simp [havg]
  · exact matchSell_neg m y sid p q bs rba (not_lt.mpr hq)

theorem no_validation_witness :
    (buysOf [(⟨1, "sell", 2024, some 5, none, none, some 2⟩ : Tx)] 2024 = []) ∧
    ((-3 : Rat) ≤ 0) ∧
    (((calculate_average_cost [⟨1, "sell", 2024, some 5, none, none, some 2⟩]
          2024).averageCostPerUnit = 0 ∧
        ∀ r ∈ (calculate_average_cost [⟨1, "sell", 2024, some 5, none, none, some 2⟩]
          2024).records, r.costBasis = 0) ∧
      matchSell "FIFO" 2024 7 2 (-3)
          [⟨1, "buy", 2024, none, some 10, some 1, none⟩] 0
        = ⟨[], [⟨1, "buy", 2024, none, some 10, some 1, none⟩], 0, -3⟩) := by
  have hb : buysOf [(⟨1, "sell", 2024, some 5, none, none, some 2⟩ : Tx)] 2024
      = [] := by
    simp [buysOf, isBuyType]
  have hq : (-3 : Rat) ≤ 0 := by norm_num
  exact ⟨hb, hq,
    no_validation _ 2024 hb "FIFO" 2024 7 2 (-3)
      [⟨1, "buy", 2024, none, some 10, some 1, none⟩] 0 hq⟩

theorem sum_gainLoss_split (records : List TaxRecord) :
    (records.map TaxRecord.gainLoss).sum
      = specTotalGain records - specTotalLoss records := by
  induction records with
  | nil => simp [specTotalGain, specTotalLoss]
  | cons r rs ih =>
      simp only [specTotalGain, specTotalLoss, List.map_cons, List.sum_cons,
        List.filter_cons] at ih ⊢
      by_cases h : 0 < r.gainLoss
      · have h' : ¬ r.gainLoss < 0 := by linarith
        simp only [decide_eq_false h', Bool.false_eq_true, if_false,
          decide_eq_true h, if_true, List.map_cons, List.sum_cons]
        rw [ih]
        ring
      · by_cases h2 : r.gainLoss < 0
        · simp only [decide_eq_false h, Bool.false_eq_true, if_false,
            decide_eq_true h2, if_true, List.map_cons, List.sum_cons]
          rw [ih, abs_of_neg h2]
          ring
        · have h3 : r.gainLoss = 0 := le_antisymm (not_lt.mp h) (not_lt.mp h2)
          simp only [decide_eq_false h, decide_eq_false h2,
            Bool.false_eq_true, if_false]
          rw [ih, h3]
          ring

/-- C6 counterexample: the annual aggregator does not sum gains
separately from losses and it DOES apply a tax rate.  For records with
gain_loss 10 and −4, the claim demands reported totals
`total_gain = 10`, `total_loss = 4` with no rate applied; the source
reports only the net 6 and an `estimated_tax_usd` of `6 × 0.21 = 1.26`
— a tax-rate application inside the aggregator. -/
theorem annual_summary_applies_tax_rate :
    (get_annual_summary [⟨1, none, 1, 10, 0, 10, "FIFO", 2024⟩,
        ⟨2, none, 1, -4, 10, 6, "FIFO", 2024⟩]).totalGainLoss = 6 ∧
    specTotalGain [⟨1, none, 1, 10, 0, 10, "FIFO", 2024⟩,
        ⟨2, none, 1, -4, 10, 6, "FIFO", 2024⟩] = 10 ∧
    specTotalLoss [⟨1, none, 1, 10, 0, 10, "FIFO", 2024⟩,
        ⟨2, none, 1, -4, 10, 6, "FIFO", 2024⟩] = 4 ∧
    (get_annual_summary [⟨1, none, 1, 10, 0, 10, "FIFO", 2024⟩,
        ⟨2, none, 1, -4, 10, 6, "FIFO", 2024⟩]).estimatedTaxUsd
      = 6 * (21 / 100) ∧
    ((6 : Rat) * (21 / 100) ≠ 0) := by
  refine ⟨?_, ?_, ?_, ?_, by norm_num⟩
  · norm_num [get_annual_summary]
  · norm_num [specTotalGain]
  · norm_num [specTotalLoss]
  · norm_num [get_annual_summary]

/-- C6 (amended): the aggregator is a pure reduction over the stored
tax records (grouped by method; wallet and year are query filters), but
it reports only the NET `total_gain_loss` — equal to the
`total_gain − total_loss` the specification defines, without reporting
the two separately — and it multiplies that net by the 21% rate into
`estimated_tax_usd`, so a tax rate IS applied inside the aggregator. -/
theorem annual_summary_net_only (records : List TaxRecord) :
    (get_annual_summary records).totalGainLoss
        = specTotalGain records - specTotalLoss records ∧
    (get_annual_summary records).estimatedTaxUsd
        = (specTotalGain records - specTotalLoss records) * (21 / 100) := by
  have h := sum_gainLoss_split records
  constructor
  · simpa only [get_annual_summary] using h
  · simp only [get_annual_summary]
    rw [h]

/-- C7 counterexample: proceeds are NOT identical across the three
methods for every disposal.  For buy(q=10) then sell(q=15, price=2),
FIFO counts proceeds only for the 10 matched units (20), while the
Average-Cost method counts the full 15 units (30). -/
theorem proceeds_differ_on_shortfall :
    (calculate_fifo [⟨1, "buy", 2024, none, some 10, some 1, none⟩,
        ⟨2, "sell", 2024, some 15, none, none, some 2⟩] 2024).totalProceeds
      = 20 ∧
    (calculate_average_cost [⟨1, "buy", 2024, none, some 10, some 1, none⟩,
        ⟨2, "sell", 2024, some 15, none, none, some 2⟩] 2024).totalProceeds
      = 30 ∧
    ((20 : Rat) ≠ 30) := by
  refine ⟨?_, ?_, by norm_num⟩
  · norm_num [calculate_fifo, runOutcomes, processSells, matchSell, mkTaxResult,
      buysOf, sellsOf, amtIn, amtOut, priceIn, priceOut, isBuyType, isSellType]
  · have hbuys : buysOf [⟨1, "buy", 2024, none, some 10, some 1, none⟩,
        ⟨2, "sell", 2024, some 15, none, none, some 2⟩] 2024
        = [⟨1, "buy", 2024, none, some 10, some 1, none⟩] := by
      simp [buysOf, isBuyType, isSellType]
    have hsells : sellsOf [⟨1, "buy", 2024, none, some 10, some 1, none⟩,
        ⟨2, "sell", 2024, some 15, none, none, some 2⟩] 2024
        = [⟨2, "sell", 2024, some 15, none, none, some 2⟩] := by
      simp [sellsOf, isBuyType, isSellType]
    have havg : averageCostPerUnit [⟨1, "buy", 2024, none, some 10, some 1, none⟩,
        ⟨2, "sell", 2024, some 15, none, none, some 2⟩] 2024 = 1 := by
      rw [averageCostPerUnit, totalBought, totalCost, hbuys]
      norm_num [amtOut, priceIn]
    simp only [calculate_average_cost, hsells, havg, List.map_cons, List.map_nil]
    norm_num [amtIn, priceOut]

/-- C7 (amended): when every disposal of the year can be fully matched
(the total disposal quantity does not exceed the total quantity
acquired in the year, all quantities being non-negative), the proceeds
attributed to each disposal are identical under FIFO, LIFO and
Average-Cost, each equal to quantity × disposal price, and the three
methods' total proceeds coincide.  Under a shortfall FIFO/LIFO count
proceeds only for the matched portion, so the equality can fail. -/
theorem proceeds_invariance (txs : List Tx) (year : Nat)
    (hb : ∀ t ∈ txs, 0 ≤ amtOut t) (hsn : ∀ t ∈ txs, 0 ≤ amtIn t)
    (hcov : ((sellsOf txs year).map amtIn).sum
        ≤ ((buysOf txs year).map amtOut).sum) :
    perSellProceeds (runOutcomes "FIFO" (buysOf txs year) (sellsOf txs year) year)
        = (sellsOf txs year).map (fun s => amtIn s * priceOut s) ∧
    perSellProceeds (runOutcomes "LIFO" (buysOf txs year).reverse
        (sellsOf txs year) year)
        = (sellsOf txs year).map (fun s => amtIn s * priceOut s) ∧
    (calculate_average_cost txs year).records.map TaxRecord.proceeds
        = (sellsOf txs year).map (fun s => amtIn s * priceOut s) ∧
    (calculate_fifo txs year).totalProceeds
        = (calculate_lifo txs year).totalProceeds ∧
    (calculate_fifo txs year).totalProceeds
        = (calculate_average_cost txs year).totalProceeds := by
  have hnnB : ∀ b ∈ buysOf txs year, 0 ≤ amtOut b :=
    fun b h => hb b (List.mem_of_mem_filter h)
  have hnnS : ∀ s ∈ sellsOf txs year, 0 ≤ amtIn s :=
    fun s h => hsn s (List.mem_of_mem_filter h)
  have hnnBr : ∀ b ∈ (buysOf txs year).reverse, 0 ≤ amtOut b :=
    fun b h => hnnB b (List.mem_reverse.mp h)
  have hf := (processSells_full "FIFO" year (sellsOf txs year)
    (buysOf txs year) 0 hnnB (Inv_zero _ hnnB) hnnS
    (by simpa [supply] using hcov)).1
  have hl := (processSells_full "LIFO" year (sellsOf txs year)
    (buysOf txs year).reverse 0 hnnBr (Inv_zero _ hnnBr) hnnS
    (by simpa [supply, List.map_reverse, List.sum_reverse] using hcov)).1
  have havgrecs : (calculate_average_cost txs year).records.map TaxRecord.proceeds
      = (sellsOf txs year).map (fun s => amtIn s * priceOut s) := by
    simp only [calculate_average_cost, List.map_map]
    rfl
  have hfp : (calculate_fifo txs year).totalProceeds
      = ((sellsOf txs year).map (fun s => amtIn s * priceOut s)).sum := by
    simp only [calculate_fifo, mkTaxResult, runOutcomes]
    rw [perSellProceeds_sum, hf]
  have hlp : (calculate_lifo txs year).totalProceeds
      = ((sellsOf txs year).map (fun s => amtIn s * priceOut s)).sum := by
    simp only [calculate_lifo, mkTaxResult, runOutcomes]
    rw [perSellProceeds_sum, hl]
  have hap : (calculate_average_cost txs year).totalProceeds
      = ((sellsOf txs year).map (fun s => amtIn s * priceOut s)).sum := by
    simp only [calculate_average_cost]
    rw [← havgrecs]
    simp only [calculate_average_cost, List.map_map]
  exact ⟨hf, hl, havgrecs, by rw [hfp, hlp], by rw [hfp, hap]⟩

theorem proceeds_invariance_witness :
    (∀ t ∈ [(⟨1, "buy", 2024, none, some 10, some 1, none⟩ : Tx),
        ⟨2, "sell", 2024, some 5, none, none, some 2⟩], 0 ≤ amtOut t) ∧
    (∀ t ∈ [(⟨1, "buy", 2024, none, some 10, some 1, none⟩ : Tx),
        ⟨2, "sell", 2024, some 5, none, none, some 2⟩], 0 ≤ amtIn t) ∧
    (((sellsOf [⟨1, "buy", 2024, none, some 10, some 1, none⟩,
        ⟨2, "sell", 2024, some 5, none, none, some 2⟩] 2024).map amtIn).sum
      ≤ ((buysOf [⟨1, "buy", 2024, none, some 10, some 1, none⟩,
        ⟨2, "sell", 2024, some 5, none, none, some 2⟩] 2024).map amtOut).sum) ∧
    ((calculate_fifo [⟨1, "buy", 2024, none, some 10, some 1, none⟩,
        ⟨2, "sell", 2024, some 5, none, none, some 2⟩] 2024).totalProceeds
      = (calculate_lifo [⟨1, "buy", 2024, none, some 10, some 1, none⟩,
        ⟨2, "sell", 2024, some 5, none, none, some 2⟩] 2024).totalProceeds ∧
     (calculate_fifo [⟨1, "buy", 2024, none, some 10, some 1, none⟩,
        ⟨2, "sell", 2024, some 5, none, none, some 2⟩] 2024).totalProceeds
      = (calculate_average_cost [⟨1, "buy", 2024, none, some 10, some 1, none⟩,
        ⟨2, "sell", 2024, some 5, none, none, some 2⟩] 2024).totalProceeds) := by
  have h1 : ∀ t ∈ [(⟨1, "buy", 2024, none, some 10, some 1, none⟩ : Tx),
      ⟨2, "sell", 2024, some 5, none, none, some 2⟩], 0 ≤ amtOut t := by
    intro t ht
    rcases List.mem_cons.mp ht with rfl | ht
    · norm_num [amtOut]
    · rcases List.mem_singleton.mp ht with rfl
      norm_num [amtOut]
  have h2 : ∀ t ∈ [(⟨1, "buy", 2024, none, some 10, some 1, none⟩ : Tx),
      ⟨2, "sell", 2024, some 5, none, none, some 2⟩], 0 ≤ amtIn t := by
    intro t ht
    rcases List.mem_cons.mp ht with rfl | ht
    · norm_num [amtIn]
    · rcases List.mem_singleton.mp ht with rfl
      norm_num [amtIn]
  have h3 : ((sellsOf [⟨1, "buy", 2024, none, some 10, some 1, none⟩,
      ⟨2, "sell", 2024, some 5, none, none, some 2⟩] 2024).map amtIn).sum
      ≤ ((buysOf [⟨1, "buy", 2024, none, some 10, some 1, none⟩,
      ⟨2, "sell", 2024, some 5, none, none, some 2⟩] 2024).map amtOut).sum := by
    have hbuys : buysOf [(⟨1, "buy", 2024, none, some 10, some 1, none⟩ : Tx),
        ⟨2, "sell", 2024, some 5, none, none, some 2⟩] 2024
        = [⟨1, "buy", 2024, none, some 10, some 1, none⟩] := by
      simp [buysOf, isBuyType, isSellType]
    have hsells : sellsOf [(⟨1, "buy", 2024, none, some 10, some 1, none⟩ : Tx),
        ⟨2, "sell", 2024, some 5, none, none, some 2⟩] 2024
        = [⟨2, "sell", 2024, some 5, none, none, some 2⟩] := by
      simp [sellsOf, isBuyType, isSellType]
    rw [hbuys, hsells]
    norm_num [amtIn, amtOut]
  have h := proceeds_invariance _ 2024 h1 h2 h3
  exact ⟨h1, h2, h3, h.2.2.2⟩

end CryptoTracker
